import Mathlib

/-!
Verification of the call-tracer utility in
`packages/core/src/utils/functionTracer.ts`.

The tracer is a singleton holding an enablement flag, a call stack of
qualified frame names, and a depth counter.  Each logging operation is a
pure state transformer that also returns the list of lines it passes to
the console, so the embedding below models every operation as
`TracerState -> TracerState x List Emission`.  Timestamps come from the
wall clock, so they enter the model as an explicit string parameter; the
argument values of the host language are abstracted by `JSValue`, which
distinguishes exactly the run-time type cases the source inspects
(`typeof arg == string`, non-null objects via their serialized form, and
everything else via its default textual form).
-/

namespace Tracer

/-- A host-language value, as far as the tracer inspects it: a string, a
non-null object carried by its compact serialized form, or any other
value carried by its default textual form. -/
inductive JSValue where
  | vstr (s : String)
  | vobj (json : String)
  | vother (text : String)
deriving DecidableEq

/-- A host-language thrown value: either a structured error with a
message, or any other value carried by its textual form. -/
inductive JSError where
  | errObj (message : String)
  | other (text : String)
deriving DecidableEq

/-- The message the tracer renders for a thrown value:
`error instanceof Error ? error.message : String(error)`. -/
def errMessage : JSError → String
  | .errObj m => m
  | .other t => t

/-- The tracer state: `enabled`, `callStack`, `depth`.  `depth` is a
host-language number, modeled as an integer so that the clamping in
`exit` is meaningful. -/
structure TracerState where
  enabled : Bool
  callStack : List String
  depth : Int
deriving DecidableEq

/-- Whether one activation variable is set to the string `1`. -/
def signalOn (v : Option String) : Bool := v == some "1"

/-- The constructor: tracing is enabled when `DEBUG` is `1` or
`GEMINI_TRACE_FUNCTIONS` is `1`; the stack starts empty and depth at
zero. -/
def mkTracer (debugEnv geminiTraceEnv : Option String) : TracerState :=
  { enabled := signalOn debugEnv || signalOn geminiTraceEnv
    callStack := []
    depth := 0 }

/-- Which console call site produced an output line. -/
inductive EmissionKind where
  | enterK | exitK | errorK | logK | promptK | responseK | llmK
deriving DecidableEq

/-- One line passed to the console, tagged with its call site. -/
structure Emission where
  kind : EmissionKind
  line : String
deriving DecidableEq

/-- `getIndent`: two spaces repeated `depth` times. -/
def indentOf (d : Int) : String := String.join (List.replicate d.toNat "  ")

/-- The qualified name: `className ? className + . + functionName :
functionName`. -/
def fullNameOf (functionName : String) (className : Option String) : String :=
  match className with
  | some c => c ++ "." ++ functionName
  | none => functionName

/-- The rendering of one argument in `enter`: long strings are truncated
to a quoted 100-character slice with the original length appended; long
serialized objects are truncated to a 100-character slice with no length
appended; everything else renders via its textual form. -/
def formatArg : JSValue → String
  | .vstr s =>
      if s.length > 200 then
        "\"" ++ s.take 100 ++ "...\" (" ++ toString s.length ++ " chars)"
      else s
  | .vobj j => if j.length > 200 then j.take 100 ++ "..." else j
  | .vother t => t

/-- The argument-list suffix in `enter`: absent arguments give an empty
suffix, present arguments render comma-separated between parentheses. -/
def argsStrOf : Option (List JSValue) → String
  | none => ""
  | some args => " (" ++ String.intercalate ", " (args.map formatArg) ++ ")"

/-- `enter`: when enabled, emit one entry line using the pre-push depth,
then push the qualified name and increment depth. -/
def enter (ts functionName : String) (className : Option String)
    (args : Option (List JSValue)) (s : TracerState) :
    TracerState × List Emission :=
  if s.enabled then
    let fullName := fullNameOf functionName className
    let line := "[" ++ ts ++ "] " ++ indentOf s.depth ++ "→ " ++ fullName
      ++ argsStrOf args
    ({ s with callStack := s.callStack ++ [fullName], depth := s.depth + 1 },
      [⟨.enterK, line⟩])
  else (s, [])

/-- The result suffix in `exit`: an absent result gives an empty suffix;
an object result renders as the first 100 characters of its serialized
form; any other result renders via its textual form. -/
def resultStrOf : Option JSValue → String
  | none => ""
  | some (.vstr s) => " → " ++ s
  | some (.vobj j) => " → " ++ j.take 100
  | some (.vother t) => " → " ++ t

/-- `exit`: when enabled, decrement depth clamped at zero, emit one exit
line using the new depth, then pop the top of the stack. -/
def exit (ts functionName : String) (className : Option String)
    (result : Option JSValue) (s : TracerState) :
    TracerState × List Emission :=
  if s.enabled then
    let d := max 0 (s.depth - 1)
    let line := "[" ++ ts ++ "] " ++ indentOf d ++ "← "
      ++ fullNameOf functionName className ++ resultStrOf result
    ({ s with depth := d, callStack := s.callStack.dropLast },
      [⟨.exitK, line⟩])
  else (s, [])

/-- `error`: when enabled, emit one error line; the state is untouched. -/
def error (ts functionName : String) (className : Option String)
    (e : JSError) (s : TracerState) : TracerState × List Emission :=
  if s.enabled then
    (s, [⟨.errorK, "[" ++ ts ++ "] " ++ indentOf s.depth ++ "✗ "
      ++ fullNameOf functionName className ++ " ERROR: " ++ errMessage e⟩])
  else (s, [])

/-- The data suffix in `log`: mirrors the argument rendering of `enter`
but with a leading separator. -/
def dataStrOf : Option JSValue → String
  | none => ""
  | some (.vstr s) =>
      if s.length > 200 then
        " | \"" ++ s.take 100 ++ "...\" (" ++ toString s.length ++ " chars)"
      else " | " ++ s
  | some (.vobj j) =>
      " | " ++ (if j.length > 200 then j.take 100 ++ "..." else j)
  | some (.vother t) => " | " ++ t

/-- `log`: when enabled, emit one generic line; the state is untouched. -/
def log (ts message : String) (data : Option JSValue) (s : TracerState) :
    TracerState × List Emission :=
  if s.enabled then
    (s, [⟨.logK, "[" ++ ts ++ "] " ++ indentOf s.depth ++ "• " ++ message
      ++ dataStrOf data⟩])
  else (s, [])

/-- The metadata suffix: absent metadata gives an empty suffix, present
metadata renders its serialized form after a separator. -/
def metaStrOf : Option String → String
  | none => ""
  | some m => " | " ++ m

/-- `logPrompt`: when enabled, emit one line with the prompt truncated
past 100 characters and its original length; the state is untouched. -/
def logPrompt (ts promptText : String) (meta : Option String)
    (s : TracerState) : TracerState × List Emission :=
  if s.enabled then
    let truncated :=
      if promptText.length > 100 then promptText.take 100 ++ "..."
      else promptText
    (s, [⟨.promptK, "[" ++ ts ++ "] " ++ indentOf s.depth
      ++ "🎯 USER_PROMPT: \"" ++ truncated ++ "\" ("
      ++ toString promptText.length ++ " chars)" ++ metaStrOf meta⟩])
  else (s, [])

/-- `logResponse`: when enabled, emit one line with the response
truncated past 200 characters and its original length; the state is
untouched. -/
def logResponse (ts responseText : String) (meta : Option String)
    (s : TracerState) : TracerState × List Emission :=
  if s.enabled then
    let truncated :=
      if responseText.length > 200 then responseText.take 200 ++ "..."
      else responseText
    (s, [⟨.responseK, "[" ++ ts ++ "] " ++ indentOf s.depth
      ++ "📤 API_RESPONSE: \"" ++ truncated ++ "\" ("
      ++ toString responseText.length ++ " chars)" ++ metaStrOf meta⟩])
  else (s, [])

/-- One element of an array-shaped prompt, as far as `logLLMPrompt`
inspects it: a plain string part, an object with a `text` property
(carried by the textual form that ends up joined into the output), or
any other part carried by its serialized form. -/
inductive LLMPart where
  | partStr (s : String)
  | partText (text : String)
  | partOther (json : String)
deriving DecidableEq

/-- The prompt argument of `logLLMPrompt`: a plain string, an array of
parts, a non-null object carried by its two-space-indented serialized
form, or any other value carried by its textual form. -/
inductive LLMPrompt where
  | pstr (s : String)
  | parr (parts : List LLMPart)
  | pobj (json2 : String)
  | pother (text : String)
deriving DecidableEq

/-- The string one part contributes to the joined prompt. -/
def partToString : LLMPart → String
  | .partStr s => s
  | .partText t => t
  | .partOther j => j

/-- The single string `logLLMPrompt` renders the prompt into: strings
pass through, arrays join their parts with a space, objects use their
serialized form, everything else its textual form. -/
def renderLLMPrompt : LLMPrompt → String
  | .pstr s => s
  | .parr ps => String.intercalate " " (ps.map partToString)
  | .pobj j => j
  | .pother t => t

/-- The escape sequence for green text. -/
def greenCode : String := "\x1b[32m"

/-- The escape sequence resetting the text style. -/
def resetCode : String := "\x1b[0m"

/-- `logLLMPrompt`: when enabled, render the prompt to one string and
emit three lines: a header, the full rendered text, and a footer with
the rendered length; the state is untouched. -/
def logLLMPrompt (ts : String) (prompt : LLMPrompt) (meta : Option String)
    (s : TracerState) : TracerState × List Emission :=
  if s.enabled then
    let promptStr := renderLLMPrompt prompt
    (s,
      [⟨.llmK, "[" ++ ts ++ "] " ++ indentOf s.depth ++ greenCode
        ++ "🚀 LLM_PROMPT:" ++ resetCode⟩,
       ⟨.llmK, greenCode ++ promptStr ++ resetCode⟩,
       ⟨.llmK, "[" ++ ts ++ "] " ++ indentOf s.depth ++ greenCode
        ++ "📏 PROMPT_LENGTH: " ++ toString promptStr.length ++ " chars"
        ++ metaStrOf meta ++ resetCode⟩])
  else (s, [])

/-- `setEnabled`: overwrite the enablement flag. -/
def setEnabled (b : Bool) (s : TracerState) : TracerState :=
  { s with enabled := b }

/-- `getCallStack`: the list value of the spread copy of the stack. -/
def getCallStack (s : TracerState) : List String := s.callStack

/-- One call to a public tracer operation, with all of its inputs
(timestamps included, since they come from the environment). -/
inductive TraceOp where
  | enterOp (ts functionName : String) (className : Option String)
      (args : Option (List JSValue))
  | exitOp (ts functionName : String) (className : Option String)
      (result : Option JSValue)
  | errorOp (ts functionName : String) (className : Option String)
      (e : JSError)
  | logOp (ts message : String) (data : Option JSValue)
  | logPromptOp (ts promptText : String) (meta : Option String)
  | logResponseOp (ts responseText : String) (meta : Option String)
  | logLLMPromptOp (ts : String) (prompt : LLMPrompt) (meta : Option String)
  | setEnabledOp (b : Bool)
  | getCallStackOp
deriving DecidableEq

/-- Run one operation: the next state and the lines it emits. -/
def stepOp : TraceOp → TracerState → TracerState × List Emission
  | .enterOp ts n c a, s => enter ts n c a s
  | .exitOp ts n c r, s => exit ts n c r s
  | .errorOp ts n c e, s => error ts n c e s
  | .logOp ts m d, s => log ts m d s
  | .logPromptOp ts p m, s => logPrompt ts p m s
  | .logResponseOp ts r m, s => logResponse ts r m s
  | .logLLMPromptOp ts p m, s => logLLMPrompt ts p m s
  | .setEnabledOp b, s => (setEnabled b s, [])
  | .getCallStackOp, s => (s, [])

/-- Run a sequence of operations, keeping only the final state. -/
def runState (ops : List TraceOp) (s : TracerState) : TracerState :=
  ops.foldl (fun st op => (stepOp op st).1) s

/-- Whether an operation is one of the logging operations (everything
except `setEnabled` and `getCallStack`). -/
def isLoggingOp : TraceOp → Bool
  | .setEnabledOp _ => false
  | .getCallStackOp => false
  | _ => true

/-- Properly paired sequences of `enter`/`exit` calls: the empty
sequence, an `enter` and a matching final `exit` wrapped around a paired
sequence, and the concatenation of two paired sequences. -/
inductive Paired : List TraceOp → Prop where
  | nil : Paired []
  | wrap (ts n c a ts2 n2 c2 r) (l : List TraceOp) : Paired l →
      Paired (TraceOp.enterOp ts n c a :: l ++ [TraceOp.exitOp ts2 n2 c2 r])
  | append {l1 l2 : List TraceOp} : Paired l1 → Paired l2 →
      Paired (l1 ++ l2)

/-- What the call to a wrapped function returns before any promise
settles: a plain value (`none` for an undefined result), a still-pending
promise, or a synchronously thrown value. -/
inductive CallResult where
  | sync (v : Option JSValue)
  | promise
  | thrown (e : JSError)
deriving DecidableEq

/-- How a pending promise eventually settles. -/
inductive Settlement where
  | fulfilled (v : Option JSValue)
  | rejected (e : JSError)
deriving DecidableEq

/-- The observable outcome of one phase of a wrapped call: the tracer
state, the emitted lines, and what the caller receives. -/
structure CallOutcome (α : Type) where
  state : TracerState
  output : List Emission
  result : α
deriving DecidableEq

/-- The call phase of the wrapper built by `trace` around a free
function: report entry, invoke the function, and on a synchronous result
report exit, on a synchronous throw report the error and re-raise, on a
promise return it still pending. -/
def traceCall (ts1 ts2 rawName : String)
    (f : List JSValue → CallResult) (args : List JSValue)
    (s : TracerState) : CallOutcome CallResult :=
  let functionName := if rawName = "" then "anonymous" else rawName
  let (s1, out1) := enter ts1 functionName none (some args) s
  match f args with
  | .sync v =>
      let (s2, out2) := exit ts2 functionName none v s1
      ⟨s2, out1 ++ out2, .sync v⟩
  | .promise => ⟨s1, out1, .promise⟩
  | .thrown e =>
      let (s2, out2) := error ts2 functionName none e s1
      ⟨s2, out1 ++ out2, .thrown e⟩

/-- The settlement phase of the wrapper for a promise-returning call:
the attached continuations report exit on fulfillment (forwarding the
value) or report the error on rejection (re-raising the original
reason). -/
def traceSettle (ts rawName : String) (settlement : Settlement)
    (s : TracerState) : CallOutcome Settlement :=
  let functionName := if rawName = "" then "anonymous" else rawName
  match settlement with
  | .fulfilled v =>
      let (s2, out) := exit ts functionName none v s
      ⟨s2, out, .fulfilled v⟩
  | .rejected e =>
      let (s2, out) := error ts functionName none e s
      ⟨s2, out, .rejected e⟩

/-- How many of the emitted lines come from a given call site. -/
def countKind (k : EmissionKind) (out : List Emission) : Nat :=
  (out.filter (fun em => em.kind == k)).length

/-- A store of array objects, for stating the aliasing behavior of the
spread copy in `getCallStack`: cells are addressed by index, reading an
unallocated cell yields the empty array. -/
structure ArrStore where
  cells : List (List String)
deriving DecidableEq

/-- Read the array held at a reference. -/
def readArr (st : ArrStore) (r : Nat) : List String := st.cells.getD r []

/-- Allocate a fresh array cell holding the given elements and return
its reference. -/
def allocArr (st : ArrStore) (v : List String) : ArrStore × Nat :=
  (⟨st.cells ++ [v]⟩, st.cells.length)

/-- Overwrite the array held at a reference. -/
def writeArr (st : ArrStore) (r : Nat) (v : List String) : ArrStore :=
  ⟨st.cells.set r v⟩

/-- `getCallStack` under the store model: the spread `[...this.callStack]`
allocates a fresh array holding the elements of the stack array and
returns a reference to the fresh cell. -/
def getCallStackAlloc (st : ArrStore) (stackRef : Nat) : ArrStore × Nat :=
  allocArr st (readArr st stackRef)

/-- The string of `n` letters `a`, for concrete oversized inputs. -/
def aRep (n : Nat) : String := String.mk (List.replicate n 'a')

/-- The data-model invariant: depth mirrors the stack length and never
goes negative. -/
def Inv (s : TracerState) : Prop :=
  s.depth = s.callStack.length ∧ 0 ≤ s.depth

/-- A concrete enabled tracer, fresh from the constructor. -/
def demoState : TracerState := mkTracer (some "1") none

/-- A concrete disabled tracer, fresh from the constructor. -/
def offState : TracerState := mkTracer none none

/-- A concrete properly paired sequence: one enter and its exit. -/
def demoOps : List TraceOp :=
  [TraceOp.enterOp "00:00:00.000" "f" none none,
   TraceOp.exitOp "00:00:00.001" "f" none none]

end Tracer

namespace Tracer

set_option maxRecDepth 10000

/-! ### Helper lemmas -/

theorem runState_cons (op : TraceOp) (l : List TraceOp) (s : TracerState) :
    runState (op :: l) s = runState l (stepOp op s).1 := rfl

theorem runState_append (l1 l2 : List TraceOp) (s : TracerState) :
    runState (l1 ++ l2) s = runState l2 (runState l1 s) :=
  List.foldl_append _ _ _ _

/-! ### Claims -/

/-- Claim C8: at construction, the tracer is enabled iff at least one of
the two environment signals (`DEBUG` or `GEMINI_TRACE_FUNCTIONS`) is set
to the activating value; with neither present it starts disabled. -/
theorem claim8_activation :
    (∀ dv gv : Option String,
      (mkTracer dv gv).enabled = true ↔ (dv = some "1" ∨ gv = some "1"))
    ∧ (mkTracer none none).enabled = false := by
  constructor
  · intro dv gv
    simp [mkTracer, signalOn]
  · rfl

/-- Claim C8 witness: both signals work, absence leaves it disabled. -/
theorem claim8_activation_witness :
    (mkTracer (some "1") none).enabled = true
    ∧ (mkTracer none (some "1")).enabled = true := by
  refine ⟨?_, ?_⟩
  · exact (claim8_activation.1 (some "1") none).mpr (Or.inl rfl)
  · exact (claim8_activation.1 none (some "1")).mpr (Or.inr rfl)

/-- Claim C4: when the tracer is disabled, every logging operation
emits nothing and leaves the state untouched. -/
theorem claim4_disabled_noop (op : TraceOp) (s : TracerState)
    (hd : s.enabled = false) (hop : isLoggingOp op = true) :
    stepOp op s = (s, []) := by
  cases op <;>
    simp_all [stepOp, isLoggingOp, enter, exit, error, log, logPrompt,
      logResponse, logLLMPrompt]

/-- Claim C4 witness: a disabled tracer ignores an oversized `enter`. -/
theorem claim4_disabled_noop_witness :
    stepOp (TraceOp.enterOp "t" "f" none (some [JSValue.vstr (aRep 500)]))
      offState = (offState, []) :=
  claim4_disabled_noop _ offState (by decide) (by decide)

/-- Claim C1 counterexample: an object argument whose serialized form
has 201 characters renders as the 100-character slice and ellipsis with
no original-length suffix, so the claimed rendering (slice, ellipsis,
and exact original character count) does not match. -/
theorem claim1_counterexample :
    formatArg (JSValue.vobj (aRep 201)) ≠
      (aRep 201).take 100 ++ "..." ++ " ("
        ++ toString (aRep 201).length ++ " chars)" := by
  decide

/-- Claim C1 amended: in the `enter` argument rendering and the `log`
data rendering, a string value over 200 characters becomes its quoted
100-character slice, an ellipsis, and the exact original character
count; an object value whose serialized form is over 200 characters
becomes the 100-character slice and an ellipsis with no count; every
value at or under the threshold, and every other value, renders
unmodified. -/
theorem claim1_truncation_amended (s j t : String) :
    (s.length > 200 →
      formatArg (JSValue.vstr s)
        = "\"" ++ s.take 100 ++ "...\" (" ++ toString s.length ++ " chars)"
      ∧ dataStrOf (some (JSValue.vstr s))
        = " | \"" ++ s.take 100 ++ "...\" (" ++ toString s.length
          ++ " chars)")
    ∧ (s.length ≤ 200 → formatArg (JSValue.vstr s) = s
      ∧ dataStrOf (some (JSValue.vstr s)) = " | " ++ s)
    ∧ (j.length > 200 → formatArg (JSValue.vobj j) = j.take 100 ++ "..."
      ∧ dataStrOf (some (JSValue.vobj j)) = " | " ++ (j.take 100 ++ "..."))
    ∧ (j.length ≤ 200 → formatArg (JSValue.vobj j) = j
      ∧ dataStrOf (some (JSValue.vobj j)) = " | " ++ j)
    ∧ (formatArg (JSValue.vother t) = t
      ∧ dataStrOf (some (JSValue.vother t)) = " | " ++ t) := by
  refine ⟨fun h => ?_, fun h => ?_, fun h => ?_, fun h => ?_, ?_⟩
  · simp [formatArg, dataStrOf, h]
  · simp [formatArg, dataStrOf, Nat.not_lt.mpr h]
  · simp [formatArg, dataStrOf, h]
  · simp [formatArg, dataStrOf, Nat.not_lt.mpr h]
  · simp [formatArg, dataStrOf]

/-- Claim C1 amended witness: a 201-character string gains a count
suffix, a 201-character object does not, and short values pass. -/
theorem claim1_truncation_amended_witness :
    (formatArg (JSValue.vstr (aRep 201))
      = "\"" ++ (aRep 201).take 100 ++ "...\" ("
        ++ toString (aRep 201).length ++ " chars)")
    ∧ formatArg (JSValue.vobj (aRep 201)) = (aRep 201).take 100 ++ "..."
    ∧ formatArg (JSValue.vobj (aRep 5)) = aRep 5 := by
  refine ⟨?_, ?_, ?_⟩
  · exact ((claim1_truncation_amended (aRep 201) (aRep 201) "x").1
      (by decide)).1
  · exact ((claim1_truncation_amended (aRep 201) (aRep 201) "x").2.2.1
      (by decide)).1
  · exact ((claim1_truncation_amended (aRep 201) (aRep 5) "x").2.2.2.1
      (by decide)).1

/-- A properly paired `enter`/`exit` sequence restores the whole tracer
state, as long as depth starts non-negative: the final `exit` undoes the
leading push and the clamped decrement undoes the increment. -/
theorem paired_runState {l : List TraceOp} (hp : Paired l) :
    ∀ s : TracerState, 0 ≤ s.depth → runState l s = s := by
  induction hp with
  | nil => exact fun s _ => rfl
  | wrap ts n c a ts2 n2 c2 r l0 hl ih =>
      intro s hs
      obtain ⟨en, cs, d⟩ := s
      have hd : (0 : Int) ≤ d := hs
      rw [runState_append]
      by_cases he : en = true
      · have h1 : runState (TraceOp.enterOp ts n c a :: l0) ⟨en, cs, d⟩
            = ⟨en, cs ++ [fullNameOf n c], d + 1⟩ := by
          rw [runState_cons]
          have hst : (stepOp (TraceOp.enterOp ts n c a)
              (⟨en, cs, d⟩ : TracerState)).1
              = ⟨en, cs ++ [fullNameOf n c], d + 1⟩ := by
            simp [stepOp, enter, he]
          rw [hst]
          exact ih _ (by simp; omega)
        rw [h1]
        have h2 : max 0 (d + 1 - 1) = d := by omega
        simp [runState, stepOp, exit, he, h2, List.dropLast_concat]
        omega
      · have h1 : runState (TraceOp.enterOp ts n c a :: l0) ⟨en, cs, d⟩
            = ⟨en, cs, d⟩ := by
          rw [runState_cons]
          have hst : (stepOp (TraceOp.enterOp ts n c a)
              (⟨en, cs, d⟩ : TracerState)).1 = ⟨en, cs, d⟩ := by
            simp [stepOp, enter, he]
          rw [hst]
          exact ih _ hd
        rw [h1]
        simp [runState, stepOp, exit, he]
  | append h1 h2 ih1 ih2 =>
      intro s hs
      rw [runState_append, ih1 s hs, ih2 s hs]

/-- Claim C2: a properly paired `enter`/`exit` sequence leaves depth
where it started; an `exit` at depth zero leaves depth at zero; and no
operation can drive depth negative. -/
theorem claim2_depth_balance :
    (∀ (l : List TraceOp) (s : TracerState), Paired l → 0 ≤ s.depth →
      (runState l s).depth = s.depth)
    ∧ (∀ (ts n : String) (c : Option String) (r : Option JSValue)
        (s : TracerState), s.depth = 0 → ((exit ts n c r s).1).depth = 0)
    ∧ (∀ (op : TraceOp) (s : TracerState), 0 ≤ s.depth →
      0 ≤ ((stepOp op s).1).depth) := by
  refine ⟨?_, ?_, ?_⟩
  · intro l s hp hs
    rw [paired_runState hp s hs]
  · intro ts n c r s hs
    by_cases he : s.enabled = true <;> simp [exit, he, hs]
  · intro op s hs
    cases op <;>
      simp only [stepOp, enter, exit, error, log, logPrompt, logResponse,
        logLLMPrompt, setEnabled] <;>
      first
        | (split <;> simp <;> omega)
        | (simp <;> omega)
        | omega

/-- Claim C2 witness: running the concrete paired sequence on a fresh
enabled tracer restores depth zero, an unmatched `exit` on the fresh
tracer keeps depth at zero, and an `enter` keeps depth non-negative. -/
theorem claim2_depth_balance_witness :
    (runState demoOps demoState).depth = demoState.depth
    ∧ ((exit "00:00:00.002" "g" none none demoState).1).depth = 0
    ∧ 0 ≤ ((stepOp (TraceOp.enterOp "00:00:00.003" "h" none none)
        demoState).1).depth := by
  refine ⟨?_, ?_, ?_⟩
  · exact claim2_depth_balance.1 demoOps demoState
      (Paired.wrap "00:00:00.000" "f" none none
        "00:00:00.001" "f" none none [] Paired.nil) (by decide)
  · exact claim2_depth_balance.2.1 "00:00:00.002" "g" none none demoState
      (by decide)
  · exact claim2_depth_balance.2.2 _ demoState (by decide)

/-- Claim C3: depth equals the stack length (and is non-negative) in
the freshly constructed tracer, and every operation preserves this, for
every input and either enablement. -/
theorem claim3_invariant :
    (∀ dv gv : Option String, Inv (mkTracer dv gv))
    ∧ (∀ (op : TraceOp) (s : TracerState), Inv s → Inv (stepOp op s).1) := by
  constructor
  · intro dv gv
    simp [Inv, mkTracer]
  · rintro op s ⟨h1, h2⟩
    cases op <;>
      by_cases he : s.enabled = true <;>
        simp_all [Inv, stepOp, enter, exit, error, log, logPrompt,
          logResponse, logLLMPrompt, setEnabled, List.length_dropLast] <;>
        omega

/-- Claim C3 witness: the invariant holds for the fresh enabled tracer
and is kept by a concrete `exit` on it. -/
theorem claim3_invariant_witness :
    Inv demoState
    ∧ Inv (stepOp (TraceOp.exitOp "00:00:01.000" "f" none none)
        demoState).1 := by
  refine ⟨?_, ?_⟩
  · exact claim3_invariant.1 (some "1") none
  · exact claim3_invariant.2 _ demoState (claim3_invariant.1 (some "1") none)

/-- Claim C5: when the tracer is enabled and the wrapped synchronous
function throws, the wrapper emits exactly one error record and no exit
record, and re-raises the same failure, its message unchanged. -/
theorem claim5_sync_throw (ts1 ts2 rawName : String)
    (f : List JSValue → CallResult) (args : List JSValue) (e : JSError)
    (s : TracerState) (hen : s.enabled = true)
    (hf : f args = CallResult.thrown e) :
    countKind EmissionKind.errorK (traceCall ts1 ts2 rawName f args s).output
      = 1
    ∧ countKind EmissionKind.exitK (traceCall ts1 ts2 rawName f args s).output
      = 0
    ∧ (traceCall ts1 ts2 rawName f args s).result = CallResult.thrown e
    ∧ ∀ e2, (traceCall ts1 ts2 rawName f args s).result = CallResult.thrown e2
        → errMessage e2 = errMessage e := by
  refine ⟨?_, ?_, ?_, ?_⟩ <;>
    simp [traceCall, hf, enter, error, hen, countKind]

/-- Claim C5 witness: a throwing function on the fresh enabled tracer. -/
theorem claim5_sync_throw_witness :
    countKind EmissionKind.errorK
      (traceCall "t1" "t2" "boom"
        (fun _ => CallResult.thrown (JSError.errObj "fail")) [] demoState
        ).output = 1
    ∧ countKind EmissionKind.exitK
      (traceCall "t1" "t2" "boom"
        (fun _ => CallResult.thrown (JSError.errObj "fail")) [] demoState
        ).output = 0
    ∧ (traceCall "t1" "t2" "boom"
        (fun _ => CallResult.thrown (JSError.errObj "fail")) [] demoState
        ).result = CallResult.thrown (JSError.errObj "fail") := by
  have h := claim5_sync_throw "t1" "t2" "boom"
    (fun _ => CallResult.thrown (JSError.errObj "fail")) []
    (JSError.errObj "fail") demoState (by decide) rfl
  exact ⟨h.1, h.2.1, h.2.2.1⟩

/-- Claim C6: when the tracer is enabled and the wrapped function
returns a promise, the call phase emits no error record; when the
promise later rejects, the settlement phase emits exactly one error
record and the returned promise rejects with the original reason, so
the whole call produces exactly one error record, at rejection time. -/
theorem claim6_async_reject (ts1 ts2 ts3 rawName : String)
    (f : List JSValue → CallResult) (args : List JSValue) (e : JSError)
    (s : TracerState) (hen : s.enabled = true)
    (hf : f args = CallResult.promise) :
    countKind EmissionKind.errorK (traceCall ts1 ts2 rawName f args s).output
      = 0
    ∧ (traceCall ts1 ts2 rawName f args s).result = CallResult.promise
    ∧ countKind EmissionKind.errorK
        (traceSettle ts3 rawName (Settlement.rejected e)
          (traceCall ts1 ts2 rawName f args s).state).output = 1
    ∧ (traceSettle ts3 rawName (Settlement.rejected e)
        (traceCall ts1 ts2 rawName f args s).state).result
        = Settlement.rejected e
    ∧ countKind EmissionKind.errorK
        ((traceCall ts1 ts2 rawName f args s).output
          ++ (traceSettle ts3 rawName (Settlement.rejected e)
              (traceCall ts1 ts2 rawName f args s).state).output) = 1 := by
  refine ⟨?_, ?_, ?_, ?_, ?_⟩ <;>
    simp [traceCall, traceSettle, hf, enter, error, hen, countKind]

/-- Claim C6 witness: a promise-returning function on the fresh enabled
tracer, rejecting at settlement. -/
theorem claim6_async_reject_witness :
    countKind EmissionKind.errorK
      (traceCall "t1" "t2" "g" (fun _ => CallResult.promise) [] demoState
        ).output = 0
    ∧ countKind EmissionKind.errorK
      (traceSettle "t3" "g" (Settlement.rejected (JSError.errObj "late"))
        (traceCall "t1" "t2" "g" (fun _ => CallResult.promise) [] demoState
          ).state).output = 1
    ∧ (traceSettle "t3" "g" (Settlement.rejected (JSError.errObj "late"))
        (traceCall "t1" "t2" "g" (fun _ => CallResult.promise) [] demoState
          ).state).result = Settlement.rejected (JSError.errObj "late") := by
  have h := claim6_async_reject "t1" "t2" "t3" "g"
    (fun _ => CallResult.promise) [] (JSError.errObj "late") demoState
    (by decide) rfl
  exact ⟨h.1, h.2.2.1, h.2.2.2.1⟩

/-- Claim C7: the `error` operation never changes the state, so a
failing wrapped invocation (synchronous throw, or promise rejection at
settlement) leaves depth and the stack length exactly one above their
values before the call: the push of `enter` is never undone on the
error path. -/
theorem claim7_error_frame :
    (∀ (ts n : String) (c : Option String) (e : JSError) (s : TracerState),
      (error ts n c e s).1 = s)
    ∧ (∀ (ts1 ts2 rawName : String) (f : List JSValue → CallResult)
        (args : List JSValue) (e : JSError) (s : TracerState),
        s.enabled = true → f args = CallResult.thrown e →
        (traceCall ts1 ts2 rawName f args s).state.depth = s.depth + 1
        ∧ (traceCall ts1 ts2 rawName f args s).state.callStack.length
          = s.callStack.length + 1)
    ∧ (∀ (ts1 ts2 ts3 rawName : String) (f : List JSValue → CallResult)
        (args : List JSValue) (e : JSError) (s : TracerState),
        s.enabled = true → f args = CallResult.promise →
        (traceSettle ts3 rawName (Settlement.rejected e)
          (traceCall ts1 ts2 rawName f args s).state).state.depth
          = s.depth + 1
        ∧ (traceSettle ts3 rawName (Settlement.rejected e)
            (traceCall ts1 ts2 rawName f args s).state).state.callStack.length
          = s.callStack.length + 1) := by
  refine ⟨?_, ?_, ?_⟩
  · intro ts n c e s
    by_cases he : s.enabled = true <;> simp [error, he]
  · intro ts1 ts2 rawName f args e s hen hf
    constructor <;> simp [traceCall, hf, enter, error, hen]
  · intro ts1 ts2 ts3 rawName f args e s hen hf
    constructor <;> simp [traceCall, traceSettle, hf, enter, error, hen]

/-- Claim C7 witness: both failure paths on the fresh enabled tracer
leave depth and stack length at one. -/
theorem claim7_error_frame_witness :
    (error "t" "f" none (JSError.errObj "oops") demoState).1 = demoState
    ∧ (traceCall "t1" "t2" "boom"
        (fun _ => CallResult.thrown (JSError.errObj "oops")) [] demoState
        ).state.depth = demoState.depth + 1
    ∧ (traceSettle "t3" "g" (Settlement.rejected (JSError.errObj "late"))
        (traceCall "t1" "t2" "g" (fun _ => CallResult.promise) [] demoState
          ).state).state.callStack.length
      = demoState.callStack.length + 1 := by
  refine ⟨?_, ?_, ?_⟩
  · exact claim7_error_frame.1 "t" "f" none (JSError.errObj "oops") demoState
  · exact (claim7_error_frame.2.1 "t1" "t2" "boom"
      (fun _ => CallResult.thrown (JSError.errObj "oops")) []
      (JSError.errObj "oops") demoState (by decide) rfl).1
  · exact (claim7_error_frame.2.2 "t1" "t2" "t3" "g"
      (fun _ => CallResult.promise) [] (JSError.errObj "late") demoState
      (by decide) rfl).2

/-- Claim C9: `getCallStack` returns the current stack contents and
changes no tracer state; under the array-store model of the spread
copy, the returned reference is fresh, the stored stack is untouched by
the call, and any later write through the returned reference leaves the
stack cell unchanged. -/
theorem claim9_defensive_copy :
    (∀ s : TracerState, getCallStack s = s.callStack
      ∧ stepOp TraceOp.getCallStackOp s = (s, []))
    ∧ (∀ (st : ArrStore) (stackRef : Nat), stackRef < st.cells.length →
        readArr (getCallStackAlloc st stackRef).1
            (getCallStackAlloc st stackRef).2 = readArr st stackRef
        ∧ readArr (getCallStackAlloc st stackRef).1 stackRef
          = readArr st stackRef
        ∧ ∀ v, readArr
            (writeArr (getCallStackAlloc st stackRef).1
              (getCallStackAlloc st stackRef).2 v) stackRef
            = readArr st stackRef) := by
  constructor
  · exact fun s => ⟨rfl, rfl⟩
  · intro st stackRef h
    refine ⟨?_, ?_, ?_⟩
    · simp [getCallStackAlloc, allocArr, readArr, List.getD,
        List.getElem?_concat_length]
    · simp [getCallStackAlloc, allocArr, readArr, List.getD,
        List.getElem?_append_left h]
    · intro v
      have hne : st.cells.length ≠ stackRef := Nat.ne_of_gt h
      simp [getCallStackAlloc, allocArr, writeArr, readArr, List.getD,
        List.getElem?_set_ne hne, List.getElem?_append_left h]

/-- Claim C9 witness: a one-cell store holding a one-frame stack. -/
theorem claim9_defensive_copy_witness :
    getCallStack demoState = demoState.callStack
    ∧ readArr (getCallStackAlloc ⟨[["main"]]⟩ 0).1
        (getCallStackAlloc ⟨[["main"]]⟩ 0).2 = readArr ⟨[["main"]]⟩ 0
    ∧ readArr
        (writeArr (getCallStackAlloc ⟨[["main"]]⟩ 0).1
          (getCallStackAlloc ⟨[["main"]]⟩ 0).2 ["clobbered"]) 0
      = readArr ⟨[["main"]]⟩ 0 := by
  refine ⟨?_, ?_, ?_⟩
  · exact (claim9_defensive_copy.1 demoState).1
  · exact (claim9_defensive_copy.2 ⟨[["main"]]⟩ 0 (by decide)).1
  · exact (claim9_defensive_copy.2 ⟨[["main"]]⟩ 0 (by decide)).2.2 ["clobbered"]

/-- Claim C10: when enabled, `logLLMPrompt` renders the prompt to one
string and emits exactly three lines: a header, the full rendered text
(between the color codes, with no truncation however long it is), and a
footer reporting the rendered length; the state is untouched. -/
theorem claim10_llm_three_lines (ts : String) (p : LLMPrompt)
    (meta : Option String) (s : TracerState) (hen : s.enabled = true) :
    (logLLMPrompt ts p meta s).1 = s
    ∧ (logLLMPrompt ts p meta s).2 =
      [⟨EmissionKind.llmK, "[" ++ ts ++ "] " ++ indentOf s.depth
        ++ greenCode ++ "🚀 LLM_PROMPT:" ++ resetCode⟩,
       ⟨EmissionKind.llmK, greenCode ++ renderLLMPrompt p ++ resetCode⟩,
       ⟨EmissionKind.llmK, "[" ++ ts ++ "] " ++ indentOf s.depth
        ++ greenCode ++ "📏 PROMPT_LENGTH: "
        ++ toString (renderLLMPrompt p).length ++ " chars"
        ++ metaStrOf meta ++ resetCode⟩]
    ∧ (logLLMPrompt ts p meta s).2.length = 3 := by
  refine ⟨?_, ?_, ?_⟩ <;> simp [logLLMPrompt, hen]

/-- Claim C10 witness: a mixed-part prompt far over every truncation
threshold renders in full on the middle line. -/
theorem claim10_llm_three_lines_witness :
    (logLLMPrompt "t" (LLMPrompt.pstr (aRep 500)) none demoState).1
      = demoState
    ∧ (logLLMPrompt "t" (LLMPrompt.pstr (aRep 500)) none demoState
        ).2.length = 3
    ∧ ((logLLMPrompt "t" (LLMPrompt.pstr (aRep 500)) none demoState
        ).2.map Emission.line).get? 1
      = some (greenCode ++ renderLLMPrompt (LLMPrompt.pstr (aRep 500))
        ++ resetCode) := by
  have h := claim10_llm_three_lines "t" (LLMPrompt.pstr (aRep 500)) none
    demoState (by decide)
  refine ⟨h.1, h.2.2, ?_⟩
  rw [h.2.1]
  rfl

end Tracer
